import Mathlib

/-
Formal model of the SnapSummary web-page content extractor (the
content script holding CONFIG, calculateLinkDensity,
calculateContentDensity, isNoiseElement, findMainContent,
extractStructuredText, cleanText and the result assembly).

Embedding conventions:
* the DOM is a value-semantics tree (`DNode`); computed style is
  carried on the element record as two booleans; layout sizes
  (naturalWidth/naturalHeight/width/height) are element fields;
* JS strings are modelled as `List Char` (one list entry per UTF-16
  unit of the source string); the `\s` regex class is modelled for
  the ASCII whitespace characters plus NBSP;
* JS number arithmetic on the heuristic scores is modelled exactly
  over ℚ (so `0.5` is `1/2` and `0.3` is `3/10`);
* `innerText` is modelled as the concatenation of the text nodes of
  the subtree, skipping subtrees whose computed style hides them;
  `textContent` concatenates all text nodes.
-/

namespace SnapSummary

set_option maxRecDepth 400000
set_option maxHeartbeats 2000000

/-! ### JS string primitives -/

/-- The characters matched by the JS regex class `\s`, restricted to
the ASCII range plus NBSP (the alphabet used by this model). -/
def isJsSpace (c : Char) : Bool :=
  c = ' ' || c = '\t' || c = '\n' || c = '\r' || c = '\u000B' ||
    c = '\u000C' || c = ' '

/-- JS `String.prototype.trim` on char lists. -/
def jsTrim (l : List Char) : List Char :=
  ((l.dropWhile isJsSpace).reverse.dropWhile isJsSpace).reverse

/-- JS `String.prototype.includes` (substring test) on char lists. -/
def containsSub (s pat : List Char) : Bool :=
  (List.range (s.length + 1)).any (fun i => pat.isPrefixOf (s.drop i))

/-- JS `String.prototype.toLowerCase`, modelled for ASCII letters. -/
def lowerL (s : String) : List Char := s.data.map Char.toLower

/-- Accumulator loop for `tokens`: `cur` is the current word, reversed. -/
def tokensAux : List Char → List Char → List (List Char)
  | cur, [] => if cur = [] then [] else [cur.reverse]
  | cur, c :: rest =>
    if isJsSpace c then
      if cur = [] then tokensAux [] rest else cur.reverse :: tokensAux [] rest
    else tokensAux (c :: cur) rest

/-- Maximal runs of non-whitespace characters, in order: the result of
`str.split(/\s+/)` with empty pieces discarded. -/
def tokens (l : List Char) : List (List Char) := tokensAux [] l

/-- The `parts.join(sep)` for char-list pieces. -/
def joinSep (sep : List Char) : List (List Char) → List Char
  | [] => []
  | p :: rest => if rest.isEmpty then p else p ++ sep ++ joinSep sep rest

/-! ### The DOM value model -/

/-- The data carried by one element node.  `displayNone` and
`visibilityHidden` stand for the element's computed style resolving to
`display: none` / `visibility: hidden`; the four size fields stand for
the `naturalWidth`/`naturalHeight`/`width`/`height` properties read by
the image selector. -/
structure ElemData where
  tag : String
  className : String
  idAttr : String
  attrs : List (String × String)
  displayNone : Bool
  visibilityHidden : Bool
  naturalWidth : Nat
  naturalHeight : Nat
  width : Nat
  height : Nat
deriving DecidableEq, Repr

/-- A DOM node: a text node or an element with ordered children. -/
inductive DNode where
  | text (s : String)
  | elem (data : ElemData) (children : List DNode)
deriving Repr

mutual
def decEqDNode : (a b : DNode) → Decidable (a = b)
  | .text s, .text t =>
    match decEq s t with
    | isTrue h => isTrue (by rw [h])
    | isFalse h => isFalse (by intro hh; injection hh; contradiction)
  | .text _, .elem _ _ => isFalse (by intro h; exact DNode.noConfusion h)
  | .elem _ _, .text _ => isFalse (fun h => DNode.noConfusion h)
  | .elem d cs, .elem e ds =>
    match decEq d e, decEqDNodeL cs ds with
    | isTrue h1, isTrue h2 => isTrue (by rw [h1, h2])
    | isFalse h1, _ => isFalse (by intro hh; injection hh; contradiction)
    | _, isFalse h2 => isFalse (by intro hh; injection hh; contradiction)

def decEqDNodeL : (a b : List DNode) → Decidable (a = b)
  | [], [] => isTrue rfl
  | [], _ :: _ => isFalse (by intro h; exact List.noConfusion h)
  | _ :: _, [] => isFalse (fun h => List.noConfusion h)
  | x :: xs, y :: ys =>
    match decEqDNode x y, decEqDNodeL xs ys with
    | isTrue h1, isTrue h2 => isTrue (by rw [h1, h2])
    | isFalse h1, _ => isFalse (by intro hh; injection hh; contradiction)
    | _, isFalse h2 => isFalse (by intro hh; injection hh; contradiction)
end

instance : DecidableEq DNode := decEqDNode

/-- An element record with the given tag, class, id and attributes,
visible and with zero layout size. -/
def mkEl (tag className idAttr : String) (attrs : List (String × String)) :
    ElemData :=
  ⟨tag, className, idAttr, attrs, false, false, 0, 0, 0, 0⟩

/-- The `getAttribute(name) || ''`. -/
def getAttrD (d : ElemData) (name : String) : String :=
  (match d.attrs.find? (fun p => p.1 = name) with
    | some p => p.2
    | none => "")

/-- The element record at the root of a node (text nodes carry a dummy
record; every place that uses this has already filtered to elements). -/
def rootData : DNode → ElemData
  | .text _ => mkEl "" "" "" []
  | .elem d _ => d

mutual
/-- The `textContent`: every text node of the subtree, concatenated. -/
def textContent : DNode → List Char
  | .text s => s.data
  | .elem _ cs => textContentL cs

def textContentL : List DNode → List Char
  | [] => []
  | n :: rest => textContent n ++ textContentL rest
end

mutual
/-- The `innerText` model: the text of the subtree, skipping subtrees whose
computed style hides them. -/
def innerText : DNode → List Char
  | .text s => s.data
  | .elem d cs =>
    if d.displayNone || d.visibilityHidden then [] else innerTextL cs

def innerTextL : List DNode → List Char
  | [] => []
  | n :: rest => innerText n ++ innerTextL rest
end

mutual
/-- All element nodes of a subtree, in document (pre-)order, each paired
with the element records of its proper ancestors within the subtree. -/
def elemsWithAnc (anc : List ElemData) : DNode → List (List ElemData × DNode)
  | .text _ => []
  | .elem d cs => (anc, .elem d cs) :: elemsWithAncL (d :: anc) cs

def elemsWithAncL (anc : List ElemData) : List DNode → List (List ElemData × DNode)
  | [] => []
  | n :: rest => elemsWithAnc anc n ++ elemsWithAncL anc rest
end

/-- All element nodes of the document, in document order, with ancestors. -/
def allElems (doc : DNode) : List (List ElemData × DNode) :=
  elemsWithAnc [] doc

/-- The proper-descendant elements of an element, in document order
(the scope of `element.querySelectorAll`). -/
def descendants : DNode → List DNode
  | .text _ => []
  | .elem _ cs => (elemsWithAncL [] cs).map (fun p => p.2)

/-! ### CSS selectors (the subset the extractor uses) -/

/-- One compound selector: all stated conditions must hold of a single
element.  `none` conditions are absent. -/
structure SimpleSel where
  tag : Option String
  cls : Option String
  idSel : Option String
  attrEq : Option (String × String)
  attrHas : Option (String × String)
  attrPresent : Option String
deriving DecidableEq, Repr

/-- A selector: a compound selector, optionally under a descendant
combinator (`anc tgt` matches `tgt` elements with an `anc` ancestor). -/
inductive Sel where
  | simple (s : SimpleSel)
  | desc (anc tgt : SimpleSel)
deriving DecidableEq, Repr

/-- Compound selector with only a tag. -/
def selTag (t : String) : SimpleSel := ⟨some t, none, none, none, none, none⟩

/-- Compound selector with only a class. -/
def selCls (c : String) : SimpleSel := ⟨none, some c, none, none, none, none⟩

/-- Compound selector with only an id. -/
def selId (i : String) : SimpleSel := ⟨none, none, some i, none, none, none⟩

/-- Compound selector `[a="v"]`. -/
def selAttrEq (a v : String) : SimpleSel := ⟨none, none, none, some (a, v), none, none⟩

/-- Compound selector `[a*="v"]`. -/
def selAttrHas (a v : String) : SimpleSel := ⟨none, none, none, none, some (a, v), none⟩

/-- Compound selector `[a]`. -/
def selAttrPresent (a : String) : SimpleSel := ⟨none, none, none, none, none, some a⟩

/-- The value an attribute selector sees: the `class` and `id`
attributes live in the dedicated record fields, everything else in the
attribute list. -/
def attrValue (d : ElemData) (name : String) : Option String :=
  if name = "class" then some d.className
  else if name = "id" then some d.idAttr
  else (d.attrs.find? (fun p => p.1 = name)).map (fun p => p.2)

/-- Whether a compound selector matches an element record.  Class
selectors test membership of the whitespace-separated class list;
`[a*="v"]` tests substring containment in the attribute value. -/
def matchesSimple (s : SimpleSel) (d : ElemData) : Bool :=
  (match s.tag with | some t => d.tag = t | none => true) &&
  (match s.cls with | some c => (tokens d.className.data).contains c.data | none => true) &&
  (match s.idSel with | some i => d.idAttr = i | none => true) &&
  (match s.attrEq with
    | some (a, v) => attrValue d a = some v
    | none => true) &&
  (match s.attrHas with
    | some (a, v) =>
      (match attrValue d a with
        | some w => containsSub w.data v.data
        | none => false)
    | none => true) &&
  (match s.attrPresent with
    | some a => (attrValue d a).isSome
    | none => true)

/-- Whether a selector matches an element given its ancestor records. -/
def matchesSel (sel : Sel) (p : List ElemData × DNode) : Bool :=
  match sel with
  | .simple s => matchesSimple s (rootData p.2)
  | .desc a t => matchesSimple t (rootData p.2) && p.1.any (matchesSimple a)

/-- The `document.querySelector`: the first matching element in document
order, or none. -/
def querySelector (doc : DNode) (sel : Sel) : Option DNode :=
  ((allElems doc).find? (matchesSel sel)).map (fun p => p.2)

/-! ### Quality metrics (calculateLinkDensity / calculateContentDensity)
and the noise classifier -/

/-- The running sum `linkLength` accumulated over
`element.querySelectorAll('a')`. -/
def anchorTextLen (e : DNode) : Nat :=
  ((descendants e).filter (fun n => (rootData n).tag = "a")).foldl
    (fun acc l => acc + (textContent l).length) 0

/-- Link density: `(text in links) / (total text)`; an element with no
text at all is assigned density 1. -/
def calculateLinkDensity (e : DNode) : ℚ :=
  let textLength := (textContent e).length
  if textLength = 0 then 1
  else (anchorTextLen e : ℚ) / (textLength : ℚ)

/-- Content density: `(paragraphs·100 + textLength) / (structural + 1)`
with `textLength` the trimmed `textContent` length and `structural` the
count of `div, span, table, ul, ol` descendants; 0 when the trimmed
text is empty. -/
def calculateContentDensity (e : DNode) : ℚ :=
  let text := jsTrim (textContent e)
  if text = [] then 0
  else
    let paragraphs := ((descendants e).filter (fun n => (rootData n).tag = "p")).length
    let textLength := text.length
    let structural := ((descendants e).filter (fun n =>
      (rootData n).tag = "div" || (rootData n).tag = "span" ||
      (rootData n).tag = "table" || (rootData n).tag = "ul" ||
      (rootData n).tag = "ol")).length
    ((paragraphs * 100 + textLength : Nat) : ℚ) / ((structural : ℚ) + 1)

/-- The substrings whose presence in class, id or role flags noise. -/
def noisePatterns : List String :=
  ["nav", "navigation", "navbar", "menu", "sidebar", "side-bar",
   "header", "footer", "breadcrumb", "meta", "byline",
   "ad", "ads", "advertisement", "promo", "promotion", "sponsor",
   "social", "share", "sharing", "follow",
   "comment", "discussion", "related", "recommend", "suggestion",
   "popup", "modal", "overlay", "tooltip", "dropdown",
   "newsletter", "subscribe", "subscription", "signup",
   "widget", "plugin", "banner"]

/-- The `isNoiseElement`: noise-pattern substring in lowercased class, id or
role; `aria-hidden="true"`; a landmark role; or a hidden computed
style. -/
def isNoiseElement (d : ElemData) : Bool :=
  let className := lowerL d.className
  let idLower := lowerL d.idAttr
  let role := lowerL (getAttrD d "role")
  let hasNoisePattern := noisePatterns.any (fun pat =>
    containsSub className pat.data || containsSub idLower pat.data ||
      containsSub role pat.data)
  if hasNoisePattern then true
  else if getAttrD d "aria-hidden" = "true" then true
  else if role = "navigation".data || role = "banner".data ||
      role = "complementary".data then true
  else if d.displayNone || d.visibilityHidden then true
  else false

/-! ### CONFIG -/

/-- The `CONFIG.MAX_CONTENT_LENGTH`. -/
def MAX_CONTENT_LENGTH : Nat := 20000

/-- The `CONFIG.MIN_CONTENT_LENGTH`. -/
def MIN_CONTENT_LENGTH : Nat := 300

/-- The `CONFIG.MIN_CONTENT_DENSITY` (the JS literal `0.3`, idealized). -/
def MIN_CONTENT_DENSITY : ℚ := 3 / 10

/-- The `CONFIG.MAX_LINK_DENSITY` (the JS literal `0.5`). -/
def MAX_LINK_DENSITY : ℚ := 1 / 2

/-! ### findMainContent -/

/-- The phase-1 selector priority list (`mainSelectors`), in declared
order. -/
def mainSelectors : List Sel :=
  [.simple ⟨some "article", none, none, some ("role", "article"), none, none⟩,
   .simple ⟨some "article", some "article", none, none, none, none⟩,
   .simple ⟨some "article", some "post", none, none, none, none⟩,
   .simple (selAttrEq "role" "article"),
   .desc (selAttrEq "role" "main") (selTag "article"),
   .desc (selTag "main") (selTag "article"),
   .simple (selAttrHas "itemtype" "Article"),
   .simple (selCls "article-content"),
   .simple (selCls "post-content"),
   .simple (selCls "entry-content"),
   .simple (selCls "article-body"),
   .simple (selCls "post-body"),
   .simple (selCls "content-body"),
   .simple (selTag "article"),
   .simple (selTag "main"),
   .simple (selAttrEq "role" "main"),
   .simple (selCls "main-content"),
   .simple (selId "article"),
   .simple (selId "post"),
   .desc (selId "content") (selTag "article"),
   .simple (selCls "markdown-body"),
   .simple (selCls "wiki-content"),
   .simple (selCls "mw-parser-output")]

/-- Phase 1, one selector: the element accepted for this selector, if
its `querySelector` match exists, is not noise, and passes the three
quality gates (`textLength > 300`, `linkDensity < 0.5`,
`contentDensity > 0.3`). -/
def phase1Accepts (doc : DNode) (sel : Sel) : Option DNode :=
  match querySelector doc sel with
  | none => none
  | some el =>
    if !isNoiseElement (rootData el) then
      let textLength := (innerText el).length
      let linkDensity := calculateLinkDensity el
      let contentDensity := calculateContentDensity el
      if textLength > MIN_CONTENT_LENGTH &&
          decide (linkDensity < MAX_LINK_DENSITY) &&
          decide (contentDensity > MIN_CONTENT_DENSITY) then
        some el
      else none
    else none

/-- Phase 1 (the semantic-selector loop): the first selector whose
match is accepted wins. -/
def phase1 (doc : DNode) : Option DNode :=
  mainSelectors.findSome? (phase1Accepts doc)

/-- Whether an element is enumerated by phase 2's
`querySelectorAll('div, section, main, article, [role="main"]')`. -/
def isPhase2Candidate (n : DNode) : Bool :=
  let d := rootData n
  d.tag = "div" || d.tag = "section" || d.tag = "main" ||
    d.tag = "article" || getAttrD d "role" = "main"

/-- The phase-2 candidate containers of a document, in document order. -/
def phase2Candidates (doc : DNode) : List DNode :=
  ((allElems doc).map (fun p => p.2)).filter isPhase2Candidate

/-- The phase-2 composite score of a container. -/
def phase2Score (c : DNode) : ℚ :=
  let paragraphs := ((descendants c).filter (fun n => (rootData n).tag = "p")).length
  let headings := ((descendants c).filter (fun n =>
    (rootData n).tag = "h1" || (rootData n).tag = "h2" ||
    (rootData n).tag = "h3" || (rootData n).tag = "h4" ||
    (rootData n).tag = "h5" || (rootData n).tag = "h6")).length
  let lists := ((descendants c).filter (fun n =>
    (rootData n).tag = "ul" || (rootData n).tag = "ol")).length
  let links := ((descendants c).filter (fun n => (rootData n).tag = "a")).length
  (paragraphs : ℚ) * 100 + (headings : ℚ) * 50 + (lists : ℚ) * 30 +
    ((innerText c).length : ℚ) * (1 / 2) + calculateContentDensity c * 10 -
    calculateLinkDensity c * 500 - (links : ℚ) * 5

/-- Whether phase 2 evaluates (rather than skips) a candidate: not
noise, text long enough, and within both density gates. -/
def phase2Survives (c : DNode) : Bool :=
  !isNoiseElement (rootData c) &&
  !decide ((innerText c).length < MIN_CONTENT_LENGTH) &&
  !decide (calculateLinkDensity c > MAX_LINK_DENSITY) &&
  !decide (calculateContentDensity c < MIN_CONTENT_DENSITY)

/-- One iteration of phase 2's `containers.forEach`: skip noise, short
text, high link density, low content density; otherwise update the best
candidate when the score strictly exceeds the running best. -/
def phase2Step (best : ℚ × Option DNode) (c : DNode) : ℚ × Option DNode :=
  if isNoiseElement (rootData c) then best
  else if (innerText c).length < MIN_CONTENT_LENGTH then best
  else if calculateLinkDensity c > MAX_LINK_DENSITY then best
  else if calculateContentDensity c < MIN_CONTENT_DENSITY then best
  else if phase2Score c > best.1 then (phase2Score c, some c)
  else best

/-- Phase 2: fold the step over all candidates starting from
`bestScore = 0`, `mainElement = null`. -/
def phase2 (doc : DNode) : Option DNode :=
  ((phase2Candidates doc).foldl phase2Step (0, none)).2

/-- The `findMainContent`: phase 1 wins outright, otherwise phase 2. -/
def findMainContent (doc : DNode) : Option DNode :=
  match phase1 doc with
  | some el => some el
  | none => phase2 doc

/-! ### extractStructuredText: the noise-removal pass -/

/-- The structural denylist (`removeSelectors`), in declared order.  All
entries are simple selectors. -/
def removeSelectors : List SimpleSel :=
  [selTag "script", selTag "style", selTag "noscript", selTag "iframe",
   selTag "object", selTag "embed", selTag "svg",
   selTag "nav", selTag "header", selTag "footer", selTag "aside",
   selTag "button", selTag "form", selTag "input", selTag "select",
   selTag "textarea",
   selCls "ad", selCls "ads", selCls "advertisement", selCls "adsbygoogle",
   selAttrHas "class" "ad-", selAttrHas "id" "ad-", selAttrHas "class" "advert",
   selCls "sponsored", selCls "sponsor", selAttrPresent "data-ad",
   selCls "sidebar", selCls "widget", selCls "menu", selCls "navigation",
   selCls "nav", selCls "navbar",
   selAttrHas "class" "sidebar", selAttrHas "id" "sidebar",
   selCls "comments", selCls "comment-section", selCls "comment-list",
   selCls "comment-form",
   selAttrHas "id" "comment", selAttrHas "class" "comment", selAttrHas "id" "disqus",
   selCls "social", selCls "share", selCls "sharing", selCls "social-share",
   selAttrHas "class" "social", selAttrHas "class" "share",
   selCls "related", selCls "recommended", selCls "more-posts",
   selCls "related-posts", selCls "suggestions",
   selAttrHas "class" "related", selAttrHas "class" "recommend",
   selCls "popup", selCls "modal", selCls "overlay", selCls "lightbox",
   selAttrHas "class" "popup", selAttrHas "class" "modal",
   selAttrEq "aria-hidden" "true",
   selAttrHas "style" "display: none", selAttrHas "style" "visibility: hidden",
   selCls "newsletter", selCls "subscription", selCls "subscribe", selCls "signup",
   selAttrHas "class" "newsletter", selAttrHas "class" "subscri",
   selCls "breadcrumb", selCls "breadcrumbs", selCls "meta", selCls "post-meta",
   selCls "article-meta",
   selCls "author-bio", selCls "about-author",
   selCls "tags", selCls "categories", selAttrHas "class" "tag-",
   selCls "video-player", selAttrHas "class" "video-js",
   selTag "figcaption", selCls "caption", selCls "credit"]

/-- Whether the removal pass deletes this node outright: an element
matching `p` (text nodes are never selector matches). -/
def removalDrops (p : ElemData → Bool) : DNode → Bool
  | .text _ => false
  | .elem d _ => p d

mutual
/-- Delete every proper-descendant element matching `p` (together with
its subtree).  The root element is kept: the JS pass queries
`clone.querySelectorAll`, which only sees descendants. -/
def removeMatching (p : ElemData → Bool) : DNode → DNode
  | .text s => .text s
  | .elem d cs => .elem d (removeMatchingL p cs)

def removeMatchingL (p : ElemData → Bool) : List DNode → List DNode
  | [] => []
  | n :: rest =>
    if removalDrops p n then removeMatchingL p rest
    else removeMatching p n :: removeMatchingL p rest
end

/-- The whole removal pass: apply each denylist selector in order. -/
def applyRemoveSelectors (el : DNode) : DNode :=
  removeSelectors.foldl (fun t sel => removeMatching (matchesSimple sel) t) el

/-! ### extractStructuredText: the tree walker and block builder -/

/-- What the builder loop needs of one walker-visited element: its
preorder index (standing for its DOM identity), tag, child nodes, and
the preorder indices of its element children. -/
structure WalkEntry where
  idx : Nat
  tag : String
  children : List DNode
  childElemIdxs : List Nat
deriving Repr

/-- Whether a node is an element node. -/
def isElem : DNode → Bool
  | .text _ => false
  | .elem _ _ => true

mutual
/-- Walk one node, numbering elements in document order starting at
`i`; returns the entries of the subtree and the next free index. -/
def walkN (i : Nat) : DNode → List WalkEntry × Nat
  | .text _ => ([], i)
  | .elem d cs =>
    let sub := walkL (i + 1) cs
    (⟨i, d.tag, cs, sub.2.1⟩ :: sub.1, sub.2.2)

/-- Walk a child list: entries, the indices given to the immediate
element children, and the next free index. -/
def walkL (i : Nat) : List DNode → List WalkEntry × List Nat × Nat
  | [] => ([], [], i)
  | n :: rest =>
    let a := walkN i n
    let b := walkL a.2 rest
    (a.1 ++ b.1, if isElem n then i :: b.2.1 else b.2.1, b.2.2)
end

/-- The tags accepted by the tree walker's `acceptNode` filter. -/
def contentTags : List String :=
  ["p", "h1", "h2", "h3", "h4", "h5", "h6", "li", "blockquote", "pre", "code"]

/-- The elements `walker.nextNode()` yields for a root element: its
proper descendants with an accepted tag, in document order (the root
itself is never returned by `nextNode`). -/
def acceptedEntries (el : DNode) : List WalkEntry :=
  (match el with
    | .text _ => []
    | .elem _ cs => (walkL 1 cs).1).filter (fun e => contentTags.contains e.tag)

/-- The concatenated text of the direct `TEXT_NODE` children. -/
def directText (cs : List DNode) : List Char :=
  cs.foldl (fun acc n =>
    match n with
    | .text s => acc ++ s.data
    | .elem _ _ => acc) []

/-- Format one accepted block by tag. -/
def formatPart (tag : String) (txt : List Char) : List Char :=
  if tag = "h1" || tag = "h2" || tag = "h3" || tag = "h4" ||
      tag = "h5" || tag = "h6" then
    "\n## ".data ++ txt ++ "\n".data
  else if tag = "li" then "• ".data ++ txt
  else if tag = "blockquote" then "> ".data ++ txt
  else if tag = "pre" || tag = "code" then
    "```\n".data ++ txt ++ "\n```".data
  else if tag = "p" then txt
  else txt

/-- The builder loop over the walker's output.  `processed` holds the
indices of elements already accepted (the JS `processedElements` set);
`parts` accumulates the formatted blocks in order. -/
def buildLoop : List WalkEntry → List Nat → List (List Char) → List (List Char)
  | [], _, parts => parts
  | e :: rest, processed, parts =>
    if processed.contains e.idx then buildLoop rest processed parts
    else
      let text := jsTrim (textContentL e.children)
      if text = [] || text.length < 10 then buildLoop rest processed parts
      else if e.childElemIdxs.any (fun i => processed.contains i) then
        buildLoop rest processed parts
      else
        let cleanDirectText := jsTrim (directText e.children)
        if cleanDirectText.length > 10 then
          buildLoop rest (e.idx :: processed)
            (parts ++ [formatPart e.tag cleanDirectText])
        else buildLoop rest processed parts

/-- JS `a || b` on strings-as-lists (empty is falsy). -/
def jsOr (a b : List Char) : List Char := if a = [] then b else a

/-- The `extractStructuredText`: clone the element (a value copy), strip the
denylist, walk the remainder into formatted blocks joined by blank
lines, falling back to the clone's flattened text when no block was
accepted. -/
def extractStructuredText (el : DNode) : List Char :=
  let clone := el
  let filtered := applyRemoveSelectors clone
  let parts := buildLoop (acceptedEntries filtered) [] []
  if parts = [] then jsOr (innerText filtered) (jsOr (textContent filtered) [])
  else joinSep "\n\n".data parts

/-! ### cleanText: the five global regex replacements, trim, truncate.

Each JS `replace` is realized as a left-to-right scan equivalent to the
regex's leftmost-greedy global matching. -/

/-- Flush for `collapseNewlinesAux`: `buf` is a whitespace run starting
with a newline, reversed, holding `nl` newlines.  A run with three or
more newlines is the regex match `\n\s*\n\s*\n+` up to its last
newline; it is replaced by two newlines, keeping the run's tail. -/
def collapseNlFlush (buf : List Char) (nl : Nat) : List Char :=
  if 3 ≤ nl then '\n' :: '\n' :: (buf.takeWhile (fun c => c ≠ '\n')).reverse
  else buf.reverse

/-- Scan for `replace(/\n\s*\n\s*\n+/g, '\n\n')`: buffer each
whitespace run that starts with a newline. -/
def collapseNewlinesAux : Option (List Char × Nat) → List Char → List Char
  | none, [] => []
  | some (buf, nl), [] => collapseNlFlush buf nl
  | none, c :: rest =>
    if c = '\n' then collapseNewlinesAux (some ([c], 1)) rest
    else c :: collapseNewlinesAux none rest
  | some (buf, nl), c :: rest =>
    if isJsSpace c then
      collapseNewlinesAux (some (c :: buf, if c = '\n' then nl + 1 else nl)) rest
    else collapseNlFlush buf nl ++ c :: collapseNewlinesAux none rest

/-- The `replace(/[ \t]+/g, ' ')`: collapse space/tab runs to one space. -/
def collapseSpacesAux : Bool → List Char → List Char
  | _, [] => []
  | inRun, c :: rest =>
    if c = ' ' || c = '\t' then
      if inRun then collapseSpacesAux true rest
      else ' ' :: collapseSpacesAux true rest
    else c :: collapseSpacesAux false rest

/-- The `replace(/\n[ \t]+/g, '\n')`: drop space/tab runs after a newline. -/
def dropIndentAux : Bool → List Char → List Char
  | _, [] => []
  | afterNl, c :: rest =>
    if afterNl && (c = ' ' || c = '\t') then dropIndentAux true rest
    else c :: dropIndentAux (c = '\n') rest

/-- The punctuation class of `replace(/\s+([,.!?;:])/g, '$1')`. -/
def punctChars : List Char := [',', '.', '!', '?', ';', ':']

/-- The `replace(/\s+([,.!?;:])/g, '$1')`: `pending` buffers the current
whitespace run, reversed; it is dropped before punctuation. -/
def fixPunctAux : List Char → List Char → List Char
  | pending, [] => pending.reverse
  | pending, c :: rest =>
    if isJsSpace c then fixPunctAux (c :: pending) rest
    else if punctChars.contains c && pending ≠ [] then c :: fixPunctAux [] rest
    else pending.reverse ++ c :: fixPunctAux [] rest

/-- The capture class `[.!?]` of the sentence-break replacement. -/
def sentEndChars : List Char := ['.', '!', '?']

/-- The `replace(/([.!?])\s*\n\s*([A-Z])/g, '$1 $2')`: after a sentence
punct, buffer the whitespace run; when it contains a newline and an
ASCII capital follows, replace the run by one space. -/
def fixSentenceAux : Option (Char × List Char) → List Char → List Char
  | none, [] => []
  | some (p, buf), [] => p :: buf.reverse
  | none, c :: rest =>
    if sentEndChars.contains c then fixSentenceAux (some (c, [])) rest
    else c :: fixSentenceAux none rest
  | some (p, buf), c :: rest =>
    if isJsSpace c then fixSentenceAux (some (p, c :: buf)) rest
    else if 'A' ≤ c && c ≤ 'Z' && buf.contains '\n' then
      p :: ' ' :: c :: fixSentenceAux none rest
    else if sentEndChars.contains c then
      (p :: buf.reverse) ++ fixSentenceAux (some (c, [])) rest
    else (p :: buf.reverse) ++ c :: fixSentenceAux none rest

/-- The `cleanText`: the five replacements in order, then `trim()`, then
`substring(0, CONFIG.MAX_CONTENT_LENGTH)`. -/
def cleanText (l : List Char) : List Char :=
  (jsTrim (fixSentenceAux none (fixPunctAux [] (dropIndentAux false
    (collapseSpacesAux false (collapseNewlinesAux none l)))))).take MAX_CONTENT_LENGTH

/-! ### Result assembly -/

/-- The `content.split(/\s+/).filter(w => w.length > 0).length`. -/
def wordCountOf (l : List Char) : Nat := (tokens l).length

/-- The `estimateReadingTime`: `Math.ceil(text.trim().split(/\s+/).length / 200)`
(an empty trimmed string splits into one empty piece). -/
def estimateReadingTime (l : List Char) : Nat :=
  let wc := if jsTrim l = [] then 1 else (tokens (jsTrim l)).length
  (wc + 199) / 200

/-- The `replace(/\s+\S*$/, '')`: drop the trailing whitespace run and the
word after it; a string with no whitespace is unchanged (no match). -/
def stripLastWord (l : List Char) : List Char :=
  let r := l.reverse
  let r1 := r.dropWhile (fun c => !isJsSpace c)
  if r1 = [] then l
  else (r1.dropWhile isJsSpace).reverse

/-- The auto-generated excerpt:
`content.substring(0, 300).replace(/\s+\S*$/, '') + '...'`. -/
def autoExcerpt (content : List Char) : List Char :=
  stripLastWord (content.take 300) ++ "...".data

/-- The fields of the extractor's result record that the extraction
core computes from the located content (the metadata fields filled by
the meta-tag cascade are outside this model). -/
structure ExtractionResult where
  content : String
  wordCount : Nat
  readingTime : Nat
  excerpt : String
deriving DecidableEq, Repr

/-- The `document.body.innerText || document.body.textContent || ''`. -/
def fallbackContent (doc : DNode) : List Char :=
  jsOr (innerText doc) (jsOr (textContent doc) [])

/-- The extraction core on a document (modelled by its body tree):
locate the main element, build its structured text (or fall back to the
whole document's text), clean it, and derive statistics and excerpt.
`result.excerpt` is empty before this point, so it is auto-generated
exactly when the content is non-empty. -/
def computeResult (doc : DNode) : ExtractionResult :=
  let raw :=
    match findMainContent doc with
    | some el => extractStructuredText el
    | none => fallbackContent doc
  let content := cleanText raw
  let ex := if content = [] then [] else autoExcerpt content
  ⟨⟨content⟩, wordCountOf content, estimateReadingTime content, ⟨ex⟩⟩

/-! ### The image-selection pass (the half of the metadata resolver
that touches the document): its candidate filter writes
`img.dataset.score` on the live tree. -/

/-- The `CONFIG.MIN_IMAGE_WIDTH`. -/
def MIN_IMAGE_WIDTH : Nat := 200

/-- The `CONFIG.MIN_IMAGE_HEIGHT`. -/
def MIN_IMAGE_HEIGHT : Nat := 100

/-- Keywords excluding an image from candidacy. -/
def excludeKeywords : List String :=
  ["icon", "logo", "avatar", "ad", "banner", "button", "emoji", "sprite"]

/-- Keywords marking feature/hero images. -/
def preferredKeywords : List String :=
  ["feature", "hero", "main", "article", "post", "content"]

/-- The candidate filter of the image selector (everything before the
`dataset.score` write): a usable `src`, no excluded keyword in src,
class or parent class, and sufficient dimensions. -/
def imgFilterPasses (parentClass : String) (d : ElemData) : Bool :=
  let src := getAttrD d "src"
  if src = "" then false
  else if "data:".data.isPrefixOf src.data then false
  else
    let srcL := lowerL src
    let clsL := lowerL d.className
    let parL := lowerL parentClass
    if excludeKeywords.any (fun kw =>
        containsSub srcL kw.data || containsSub clsL kw.data ||
          containsSub parL kw.data) then false
    else
      let w := if d.naturalWidth ≠ 0 then d.naturalWidth else d.width
      let h := if d.naturalHeight ≠ 0 then d.naturalHeight else d.height
      if w < MIN_IMAGE_WIDTH || h < MIN_IMAGE_HEIGHT then false
      else true

/-- Whether the image gets the preferred-class score boost. -/
def hasPreferredClass (parentClass : String) (d : ElemData) : Bool :=
  preferredKeywords.any (fun kw =>
    containsSub (lowerL d.className) kw.data ||
      containsSub (lowerL parentClass) kw.data)

/-- The `setAttribute` on an attribute list: replace in place or append. -/
def setAttr (attrs : List (String × String)) (k v : String) :
    List (String × String) :=
  if (attrs.find? (fun p => p.1 = k)).isSome then
    attrs.map (fun p => if p.1 = k then (k, v) else p)
  else attrs ++ [(k, v)]

mutual
/-- The document after the image selector's filter ran: every image
that passes the candidate filter has had `data-score` written to it
(`1000` with the preferred-class boost, else `0`).  `parentClass` is
the class of the enclosing element. -/
def imagePassN (parentClass : String) : DNode → DNode
  | .text s => .text s
  | .elem d cs =>
    let v := if hasPreferredClass parentClass d then "1000" else "0"
    let d' :=
      if d.tag = "img" && imgFilterPasses parentClass d then
        { d with attrs := setAttr d.attrs "data-score" v }
      else d
    .elem d' (imagePassL d.className cs)

def imagePassL (parentClass : String) : List DNode → List DNode
  | [] => []
  | n :: rest => imagePassN parentClass n :: imagePassL parentClass rest
end

/-- The image pass over the whole document body. -/
def imagePass (doc : DNode) : DNode := imagePassN "" doc

/-- One whole extraction invocation, with the document threaded through
the steps that can touch it.  `hasMetaImage` stands for the outcome of
the structured-data/meta-tag image cascade: when it produced an image,
the image-selection pass (and its `dataset.score` writes) is skipped.
The scroll sequence is outside the model.  The pair's second component
is the live document as the caller sees it afterwards. -/
def extractPage (doc : DNode) (hasMetaImage : Bool) :
    ExtractionResult × DNode :=
  let doc1 := if hasMetaImage then doc else imagePass doc
  (computeResult doc1, doc1)

/-! ### Spec-worded definitions, for comparison with the code.

These two definitions follow the specification's words (not the code)
where the two differ; they exist to state refutations precisely. -/

/-- Following the spec's words for phase 2's survivor set: a candidate
that is not noise, has sufficient text (the 300-character minimum),
link density *below* 0.5 and content density *above* 0.3. -/
def specSurvivesC1 (c : DNode) : Bool :=
  !isNoiseElement (rootData c) &&
  decide (MIN_CONTENT_LENGTH ≤ (innerText c).length) &&
  decide (calculateLinkDensity c < MAX_LINK_DENSITY) &&
  decide (MIN_CONTENT_DENSITY < calculateContentDensity c)

/-- Following the spec's words for the phase-1 quality gates: visible
text length *at least* 300 characters (`≥`, where the code tests `>`),
link density below 0.5, content density above 0.3, not noise. -/
def specPhase1Accepts (doc : DNode) (sel : Sel) : Option DNode :=
  match querySelector doc sel with
  | none => none
  | some el =>
    if !isNoiseElement (rootData el) &&
        decide (MIN_CONTENT_LENGTH ≤ (innerText el).length) &&
        decide (calculateLinkDensity el < MAX_LINK_DENSITY) &&
        decide (MIN_CONTENT_DENSITY < calculateContentDensity el) then
      some el
    else none

/-! ### Concrete documents used as test inputs -/

/-- A plain element with tag `t` and the given children. -/
def plainEl (t : String) (cs : List DNode) : DNode := .elem (mkEl t "" "" []) cs

/-- A `<p>` with one text child. -/
def mkP (s : String) : DNode := plainEl "p" [.text s]

/-- A string of 240 letters. -/
def str240 : String := ⟨List.replicate 240 'a'⟩

/-- A string of 160 letters. -/
def str160 : String := ⟨List.replicate 160 'b'⟩

/-- A container that passes every phase-2 gate but scores below zero:
400 characters of text of which 160 are anchor text (link density 2/5),
twenty more empty anchors, and 39 empty spans (content density 10).
Its score is 200 + 100 − 200 − 105 = −5. -/
def exDivLow : DNode :=
  plainEl "div"
    ([DNode.text str240, plainEl "a" [.text str160]] ++
      List.replicate 20 (plainEl "a" []) ++
      List.replicate 39 (plainEl "span" []))

/-- A document whose only candidate container is `exDivLow`. -/
def exDocLow : DNode := plainEl "body" [exDivLow]

/-- A container with link density exactly 0.5: 400 characters of text,
200 of them in one anchor, plus two 100-character paragraphs.  The code
evaluates it (its skip tests use strict comparisons) and it scores
6145. -/
def exDivHalf : DNode :=
  plainEl "div"
    [mkP ⟨List.replicate 100 'x'⟩, mkP ⟨List.replicate 100 'y'⟩,
     plainEl "a" [.text ⟨List.replicate 200 'z'⟩]]

/-- A document whose only candidate container is `exDivHalf`. -/
def exDocHalf : DNode := plainEl "body" [exDivHalf]

/-- An `<article>` with exactly 300 characters of text. -/
def exArticle300 : DNode := plainEl "article" [.text ⟨List.replicate 300 'a'⟩]

/-- A `<main>` with 400 characters of text. -/
def exMain400 : DNode := plainEl "main" [.text ⟨List.replicate 400 'm'⟩]

/-- A document where the `article` selector's match has exactly 300
characters (the spec's `≥ 300` accepts it, the code's `> 300` does
not) and a later `main` match passes outright. -/
def exDocPrio : DNode := plainEl "body" [exArticle300, exMain400]

/-- A document whose single candidate is a high-scoring container:
three 150-character paragraphs (score 8025). -/
def exDocPos : DNode :=
  plainEl "body"
    [plainEl "div"
      [mkP ⟨List.replicate 150 'p'⟩, mkP ⟨List.replicate 150 'q'⟩,
       mkP ⟨List.replicate 150 'r'⟩]]

/-- An `<article>` with 301 characters of text, passing the code's
phase-1 gates. -/
def exDocArticle : DNode :=
  plainEl "body" [plainEl "article" [.text ⟨List.replicate 301 'a'⟩]]

/-- An element with no text and no anchors. -/
def exDivEmpty : DNode := plainEl "div" []

/-- An element whose entire text is one anchor's text. -/
def exDivLink : DNode := plainEl "div" [plainEl "a" [.text "hello"]]

/-- An image that passes the image selector's candidate filter. -/
def exImg : DNode :=
  .elem ⟨"img", "", "", [("src", "https://x/pic.jpg")], false, false,
    300, 200, 0, 0⟩ []

/-- A document containing a candidate image (and no meta image). -/
def exDocImg : DNode := plainEl "body" [exImg]

/-- A container whose children are two paragraphs, one with exactly 10
characters of direct text and one with 15. -/
def exContainerTen : DNode := plainEl "div" [mkP "abcdefghij", mkP "abcdefghijklmno"]

/-- A document whose whole text is a single 400-character token. -/
def exDocLong : DNode := plainEl "body" [.text ⟨List.replicate 400 'a'⟩]

/-- A document whose whole text is `"hello world"`. -/
def exDocHello : DNode := plainEl "body" [.text "hello world"]

/-- A document whose whole text is `"hi"`. -/
def exDocHi : DNode := plainEl "body" [.text "hi"]

/-- An article containing an `aria-hidden="true"` span next to 301
characters of body text. -/
def exArticleHidden : DNode :=
  plainEl "article"
    [.text ⟨List.replicate 301 'a'⟩,
     .elem (mkEl "span" "" "" [("aria-hidden", "true")]) [.text "hidden stuff"]]

/-- A document whose main content is `exArticleHidden`. -/
def exDocHidden : DNode := plainEl "body" [exArticleHidden]

/-! ### Definitions used by the analysis below -/

/-- Joint structural induction for `DNode` and its child lists. -/
def DNode.rec2 {P : DNode → Prop} {Q : List DNode → Prop}
    (ht : ∀ s, P (.text s)) (he : ∀ d cs, Q cs → P (.elem d cs))
    (hn : Q []) (hc : ∀ n rest, P n → Q rest → Q (n :: rest)) :
    (∀ n, P n) ∧ (∀ l, Q l) :=
  ⟨recN, recL⟩
where
  recN : ∀ n, P n
    | .text s => ht s
    | .elem d cs => he d cs (recL cs)
  recL : ∀ l, Q l
    | [] => hn
    | n :: rest => hc n rest (recN n) (recL rest)

/-- The score-compare-and-update kernel of one phase-2 iteration. -/
def coreStep (best : ℚ × Option DNode) (c : DNode) : ℚ × Option DNode :=
  if phase2Score c > best.1 then (phase2Score c, some c) else best

/-- The survivors of phase 2, in document order. -/
def phase2SurvivorsOf (doc : DNode) : List DNode :=
  (phase2Candidates doc).filter phase2Survives

/-- The running maximum of scores over a list, seeded with `b`. -/
def maxRun (l : List DNode) (b : ℚ) : ℚ :=
  l.foldl (fun a c => max a (phase2Score c)) b

/-- The maximal phase-2 score of a document's survivors (at least 0,
the seed of the running best). -/
def phase2MaxScore (doc : DNode) : ℚ := maxRun (phase2SurvivorsOf doc) 0

mutual
/-- A node with every `data-score` attribute erased, everywhere. -/
def stripDS : DNode → DNode
  | .text s => .text s
  | .elem d cs =>
    .elem { d with attrs := d.attrs.filter (fun p => decide (p.1 ≠ "data-score")) }
      (stripDSL cs)

def stripDSL : List DNode → List DNode
  | [] => []
  | n :: rest => stripDS n :: stripDSL rest
end

mutual
/-- Whether some element of the subtree (the root included) satisfies
`p`. -/
def existsElem (p : ElemData → Bool) : DNode → Bool
  | .text _ => false
  | .elem d cs => p d || existsElemL p cs

def existsElemL (p : ElemData → Bool) : List DNode → Bool
  | [] => false
  | n :: rest => existsElem p n || existsElemL p rest
end

/-- Carrying the attribute `aria-hidden="true"`. -/
def ariaP (d : ElemData) : Bool := decide (getAttrD d "aria-hidden" = "true")

/-- The walker entries produced by a run of text-only paragraphs,
numbered from `i`. -/
def pEntryList : Nat → List String → List WalkEntry
  | _, [] => []
  | i, s :: rest => ⟨i, "p", [DNode.text s], []⟩ :: pEntryList (i + 1) rest

/-! ## Helper lemmas -/

/-- The `cleanText` output never exceeds the configured maximum. -/
theorem cleanText_length_le (l : List Char) :
    (cleanText l).length ≤ MAX_CONTENT_LENGTH := by
  unfold cleanText
  exact List.length_take_le _ _

/-- The `content` field of a computed result, unfolded. -/
theorem computeResult_content (doc : DNode) :
    (computeResult doc).content =
      ⟨cleanText
        (match findMainContent doc with
          | some el => extractStructuredText el
          | none => fallbackContent doc)⟩ := rfl

/-! ## C3: the content-length cap -/

/-- C3: for every extraction result — whichever of the structured,
fallback, or whole-document paths produced the text — the final
`content` string never exceeds the configured 20,000-character
maximum. -/
theorem c3_content_capped (doc : DNode) (hasMetaImage : Bool) :
    ((extractPage doc hasMetaImage).1).content.length ≤ MAX_CONTENT_LENGTH := by
  have h : (extractPage doc hasMetaImage).1 =
      computeResult (if hasMetaImage then doc else imagePass doc) := rfl
  rw [h, computeResult_content]
  exact cleanText_length_le _

/-! ## C4: link density -/

/-- C4 counterexample: an element with no anchor tags (and no text) has
link density 1, not 0 as the claim states. -/
theorem c4_counterexample :
    ((descendants exDivEmpty).filter (fun n => (rootData n).tag = "a")).length = 0 ∧
      calculateLinkDensity exDivEmpty = 1 ∧ (1 : ℚ) ≠ 0 :=
  ⟨by decide, by with_unfolding_all decide, by norm_num⟩

/-- C4 (amended): link density is (sum of anchor text lengths) divided
by total text length whenever the total text length is nonzero — so
such an element with no anchor text has density 0 and one whose anchor
text sums to its whole text has density 1 — while an element with zero
total text length is assigned density 1 by convention. -/
theorem c4_link_density (e : DNode) :
    (calculateLinkDensity e =
      if (textContent e).length = 0 then 1
      else (anchorTextLen e : ℚ) / ((textContent e).length : ℚ)) ∧
    ((textContent e).length ≠ 0 → anchorTextLen e = 0 →
      calculateLinkDensity e = 0) ∧
    ((textContent e).length ≠ 0 → anchorTextLen e = (textContent e).length →
      calculateLinkDensity e = 1) := by
  refine ⟨rfl, ?_, ?_⟩
  · intro h hz
    show (if (textContent e).length = 0 then 1
      else (anchorTextLen e : ℚ) / ((textContent e).length : ℚ)) = 0
    rw [if_neg h, hz]
    simp
  · intro h hall
    show (if (textContent e).length = 0 then 1
      else (anchorTextLen e : ℚ) / ((textContent e).length : ℚ)) = 1
    rw [if_neg h, hall]
    exact div_self (by exact_mod_cast h)

/-- C4 witness: a concrete element whose whole text is anchor text has
link density 1. -/
theorem c4_witness :
    (textContent exDivLink).length ≠ 0 ∧
      anchorTextLen exDivLink = (textContent exDivLink).length ∧
      calculateLinkDensity exDivLink = 1 :=
  ⟨by decide, by decide, (c4_link_density exDivLink).2.2 (by decide) (by decide)⟩

/-! ## C5: the no-container fallback -/

/-- C5: when neither phase of the Locator yields an element, extraction
still returns a complete result whose `content` is the cleaned
whole-document visible text (no error path exists; every field is
derived from that fallback content). -/
theorem c5_fallback (doc : DNode) (h : findMainContent doc = none) :
    computeResult doc =
      ⟨⟨cleanText (fallbackContent doc)⟩,
        wordCountOf (cleanText (fallbackContent doc)),
        estimateReadingTime (cleanText (fallbackContent doc)),
        ⟨if cleanText (fallbackContent doc) = [] then []
          else autoExcerpt (cleanText (fallbackContent doc))⟩⟩ := by
  unfold computeResult
  rw [h]

/-- C5 witness: a document with no qualifying container falls back to
its whole text. -/
theorem c5_witness :
    findMainContent exDocHi = none ∧
      computeResult exDocHi = ⟨"hi", 1, 1, "hi..."⟩ :=
  ⟨by decide, by rw [c5_fallback exDocHi (by decide)]; decide⟩

/-! ## C2: phase-1 selector priority -/

/-- The `findSome?` skips a block of failing inputs. -/
theorem findSome?_append_none {α β : Type} (f : α → Option β) (pre l2 : List α)
    (h : ∀ s ∈ pre, f s = none) :
    (pre ++ l2).findSome? f = l2.findSome? f := by
  induction pre with
  | nil => rfl
  | cons a t ih =>
    have ha : f a = none := h a (List.mem_cons_self a t)
    simp only [List.cons_append, List.findSome?]
    rw [ha]
    exact ih fun s hs => h s (List.mem_cons_of_mem a hs)

/-- The `findSome?` returns the head's value when the head succeeds. -/
theorem findSome?_cons_some {α β : Type} (f : α → Option β) (a : α) (t : List α)
    {b : β} (h : f a = some b) : (a :: t).findSome? f = some b := by
  simp only [List.findSome?]
  rw [h]

/-- C2 (amended): if some phase-1 selector's match passes the code's
quality gates (visible text length strictly greater than 300, link
density below 0.5, content density above 0.3, not noise), the Locator
returns the match of the earliest such selector in the declared
priority list, and phase 1 terminates there (phase 2 never runs). -/
theorem c2_phase1_priority (doc : DNode) (pre post : List Sel) (sel : Sel)
    (el : DNode) (hsplit : mainSelectors = pre ++ sel :: post)
    (hpre : ∀ s ∈ pre, phase1Accepts doc s = none)
    (hsel : phase1Accepts doc sel = some el) :
    phase1 doc = some el ∧ findMainContent doc = some el := by
  have h1 : phase1 doc = some el := by
    unfold phase1
    rw [hsplit, findSome?_append_none _ _ _ hpre, findSome?_cons_some _ _ _ hsel]
  refine ⟨h1, ?_⟩
  unfold findMainContent
  rw [h1]

/-- C2 witness: in `exDocArticle` the fourteenth selector (`article`)
is the earliest acceptance, and the Locator returns its match. -/
theorem c2_witness :
    ((mainSelectors.take 13).all
        (fun s => (phase1Accepts exDocArticle s).isNone)) = true ∧
      phase1Accepts exDocArticle (Sel.simple (selTag "article")) =
        some (plainEl "article" [.text ⟨List.replicate 301 'a'⟩]) ∧
      findMainContent exDocArticle =
        some (plainEl "article" [.text ⟨List.replicate 301 'a'⟩]) :=
  ⟨by with_unfolding_all decide, by with_unfolding_all decide,
    (c2_phase1_priority exDocArticle (mainSelectors.take 13)
      (mainSelectors.drop 14) (Sel.simple (selTag "article")) _
      (by decide) (by with_unfolding_all decide)
      (by with_unfolding_all decide)).2⟩

/-- C2 counterexample: under the spec's `≥ 300` reading of the text
gate, the earliest passing selector in `exDocPrio` is `article` (its
match has exactly 300 characters), yet the Locator returns the later
`main` element: the code's gate is strict. -/
theorem c2_counterexample :
    ((mainSelectors.take 13).all
        (fun s => (specPhase1Accepts exDocPrio s).isNone)) = true ∧
      mainSelectors.get? 13 = some (Sel.simple (selTag "article")) ∧
      specPhase1Accepts exDocPrio (Sel.simple (selTag "article")) =
        some exArticle300 ∧
      findMainContent exDocPrio = some exMain400 ∧
      exMain400 ≠ exArticle300 :=
  ⟨by with_unfolding_all decide, by decide, by with_unfolding_all decide,
    by with_unfolding_all decide, by decide⟩

/-! ## The phase-2 fold, analysed -/

/-- One phase-2 iteration, in terms of the survivor test. -/
theorem phase2Step_eq (best : ℚ × Option DNode) (c : DNode) :
    phase2Step best c = if phase2Survives c then coreStep best c else best := by
  unfold phase2Step phase2Survives coreStep
  split_ifs with h1 h2 h3 h4 <;> simp_all

/-- The `coreStep` on an explicit pair. -/
theorem coreStep_pair (b : ℚ) (m : Option DNode) (c : DNode) :
    coreStep (b, m) c =
      if phase2Score c > b then (phase2Score c, some c) else (b, m) := rfl

/-- The phase-2 fold only looks at survivors. -/
theorem foldl_phase2Step_filter (l : List DNode) (init : ℚ × Option DNode) :
    l.foldl phase2Step init = (l.filter phase2Survives).foldl coreStep init := by
  induction l generalizing init with
  | nil => rfl
  | cons c rest ih =>
    simp only [List.foldl_cons, List.filter_cons, phase2Step_eq]
    by_cases h : phase2Survives c
    · simp only [h, if_true, List.foldl_cons]
      exact ih _
    · simp only [h, Bool.false_eq_true, if_false]
      exact ih _

theorem maxRun_cons (c : DNode) (rest : List DNode) (b : ℚ) :
    maxRun (c :: rest) b = maxRun rest (max b (phase2Score c)) := rfl

theorem le_maxRun_init (l : List DNode) (b : ℚ) : b ≤ maxRun l b := by
  induction l generalizing b with
  | nil => exact le_refl b
  | cons c rest ih =>
    exact le_trans (le_max_left _ _) (ih (max b (phase2Score c)))

theorem le_maxRun_of_mem {l : List DNode} {c : DNode} (h : c ∈ l) (b : ℚ) :
    phase2Score c ≤ maxRun l b := by
  induction l generalizing b with
  | nil => cases h
  | cons d rest ih =>
    rcases List.mem_cons.mp h with rfl | h'
    · exact le_trans (le_max_right _ _) (le_maxRun_init _ _)
    · exact ih h' _

/-- The first component of the fold is the running maximum. -/
theorem coreFold_fst (l : List DNode) : ∀ (b : ℚ) (m : Option DNode),
    (l.foldl coreStep (b, m)).1 = maxRun l b := by
  induction l with
  | nil => intro b m; rfl
  | cons c rest ih =>
    intro b m
    rw [List.foldl_cons, maxRun_cons, coreStep_pair]
    by_cases h : phase2Score c > b
    · rw [if_pos h, ih, max_eq_right (le_of_lt h)]
    · rw [if_neg h, ih, max_eq_left (not_lt.mp h)]

/-- If the fold ends on `some x` then the final best score is `x`'s
score (given that the invariant held initially). -/
theorem coreFold_some_fst (l : List DNode) : ∀ (b : ℚ) (m : Option DNode),
    (∀ x, m = some x → b = phase2Score x) →
    ∀ x, (l.foldl coreStep (b, m)).2 = some x →
      (l.foldl coreStep (b, m)).1 = phase2Score x := by
  induction l with
  | nil =>
    intro b m hm x hx
    exact (hm x hx).symm ▸ rfl
  | cons c rest ih =>
    intro b m hm x
    rw [List.foldl_cons, coreStep_pair]
    by_cases h : phase2Score c > b
    · rw [if_pos h]
      exact ih _ _ (fun y hy => by cases hy; rfl) x
    · rw [if_neg h]
      exact ih _ _ hm x

/-- Whatever the fold returns was the initial element or a member. -/
theorem coreFold_mem (l : List DNode) : ∀ (b : ℚ) (m : Option DNode) (x : DNode),
    (l.foldl coreStep (b, m)).2 = some x → m = some x ∨ x ∈ l := by
  induction l with
  | nil => intro b m x h; exact Or.inl h
  | cons c rest ih =>
    intro b m x h
    rw [List.foldl_cons, coreStep_pair] at h
    by_cases hc : phase2Score c > b
    · rw [if_pos hc] at h
      rcases ih _ _ _ h with h' | h'
      · exact Or.inr (Option.some.inj h' ▸ List.mem_cons_self c rest)
      · exact Or.inr (List.mem_cons_of_mem c h')
    · rw [if_neg hc] at h
      rcases ih _ _ _ h with h' | h'
      · exact Or.inl h'
      · exact Or.inr (List.mem_cons_of_mem c h')

/-- If no member beats the running best, the fold is the identity. -/
theorem coreFold_stay (l : List DNode) : ∀ (b : ℚ) (m : Option DNode),
    (∀ c ∈ l, phase2Score c ≤ b) → l.foldl coreStep (b, m) = (b, m) := by
  induction l with
  | nil => intro b m _; rfl
  | cons c rest ih =>
    intro b m h
    rw [List.foldl_cons, coreStep_pair,
      if_neg (not_lt.mpr (h c (List.mem_cons_self c rest)))]
    exact ih _ _ fun d hd => h d (List.mem_cons_of_mem c hd)

/-- When some member beats the seed, the fold returns the first member
attaining the running maximum. -/
theorem coreFold_first_max (l : List DNode) : ∀ (b : ℚ) (m : Option DNode),
    b < maxRun l b →
    (l.foldl coreStep (b, m)).2 =
      l.find? (fun c => decide (phase2Score c = maxRun l b)) := by
  induction l with
  | nil => intro b m h; exact absurd h (lt_irrefl b)
  | cons c rest ih =>
    intro b m h
    rw [maxRun_cons] at h ⊢
    rw [List.foldl_cons, coreStep_pair]
    by_cases hc : phase2Score c > b
    · rw [if_pos hc]
      rw [max_eq_right (le_of_lt hc)] at h ⊢
      by_cases h2 : phase2Score c < maxRun rest (phase2Score c)
      · rw [ih _ _ h2, List.find?_cons_of_neg]
        simp only [decide_eq_true_eq]
        exact ne_of_lt h2
      · have heq : maxRun rest (phase2Score c) = phase2Score c :=
          le_antisymm (not_lt.mp h2) (le_maxRun_init _ _)
        have hall : ∀ d ∈ rest, phase2Score d ≤ phase2Score c := by
          intro d hd
          exact heq ▸ le_maxRun_of_mem hd (phase2Score c)
        rw [coreFold_stay rest _ _ hall, List.find?_cons_of_pos]
        simp only [decide_eq_true_eq]
        exact heq.symm
    · rw [if_neg hc]
      rw [max_eq_left (not_lt.mp hc)] at h ⊢
      rw [ih _ _ h, List.find?_cons_of_neg]
      simp only [decide_eq_true_eq]
      exact ne_of_lt (lt_of_le_of_lt (not_lt.mp hc) h)

/-- Phase 2 as the analysed fold over the survivors. -/
theorem phase2_eq_coreFold (doc : DNode) :
    phase2 doc = ((phase2SurvivorsOf doc).foldl coreStep (0, none)).2 := by
  unfold phase2 phase2SurvivorsOf
  rw [foldl_phase2Step_filter]

/-! ## C1: phase-2 maximum-score selection -/

/-- C1 counterexample, refuting the claim as stated at two inputs.
In `exDocHalf` the returned container has link density exactly 0.5, so
it is not a survivor under the claim's "link density below 0.5" — the
claim's survivor set is empty yet an element is returned.  In
`exDocLow` the claim's survivor set is nonempty (its best score is
−5 ≤ 0) yet the Locator returns no maximum-scoring candidate at all. -/
theorem c1_counterexample :
    (phase1 exDocHalf = none ∧
      findMainContent exDocHalf = some exDivHalf ∧
      (phase2Candidates exDocHalf).filter specSurvivesC1 = []) ∧
    (phase1 exDocLow = none ∧
      (phase2Candidates exDocLow).filter specSurvivesC1 = [exDivLow] ∧
      findMainContent exDocLow = none) :=
  ⟨⟨by decide, by with_unfolding_all decide, by with_unfolding_all decide⟩,
    ⟨by decide, by with_unfolding_all decide, by with_unfolding_all decide⟩⟩

/-- C1 (amended): when phase 1 accepts nothing, phase 2 scores every
surviving candidate (not noise, text length at least 300, link density
at most 0.5, content density at least 0.3) with the composite score
`phase2Score`, and: the Locator never returns a survivor whose score
another survivor strictly exceeds; and when the maximum survivor score
is positive, it returns the first survivor in document order attaining
that maximum (so exact ties resolve to the earlier container). -/
theorem c1_phase2_max (doc : DNode) (h1 : phase1 doc = none) :
    (∀ A ∈ phase2SurvivorsOf doc, ∀ B ∈ phase2SurvivorsOf doc,
      phase2Score B < phase2Score A → findMainContent doc ≠ some B) ∧
    (0 < phase2MaxScore doc →
      findMainContent doc =
        (phase2SurvivorsOf doc).find?
          (fun c => decide (phase2Score c = phase2MaxScore doc))) := by
  have hfm : findMainContent doc = phase2 doc := by
    unfold findMainContent
    rw [h1]
  constructor
  · intro A hA B hB hlt hret
    rw [hfm, phase2_eq_coreFold] at hret
    have hfst : ((phase2SurvivorsOf doc).foldl coreStep (0, none)).1 =
        phase2Score B :=
      coreFold_some_fst _ _ _ (fun x hx => by cases hx) B hret
    have hmax : ((phase2SurvivorsOf doc).foldl coreStep (0, none)).1 =
        maxRun (phase2SurvivorsOf doc) 0 := coreFold_fst _ _ _
    have : phase2Score A ≤ phase2Score B := by
      rw [← hfst, hmax]
      exact le_maxRun_of_mem hA 0
    exact absurd hlt (not_lt.mpr this)
  · intro hpos
    rw [hfm, phase2_eq_coreFold]
    exact coreFold_first_max _ _ _ hpos

/-- C1 witness: a document with one high-scoring survivor, where the
Locator returns the first (only) maximum-scoring survivor. -/
theorem c1_witness :
    phase1 exDocPos = none ∧ 0 < phase2MaxScore exDocPos ∧
      findMainContent exDocPos =
        (phase2SurvivorsOf exDocPos).find?
          (fun c => decide (phase2Score c = phase2MaxScore exDocPos)) :=
  ⟨by decide, by with_unfolding_all decide,
    (c1_phase2_max exDocPos (by decide)).2 (by with_unfolding_all decide)⟩

/-! ## C10: all-nonpositive scores fall through to the fallback -/

/-- C10: the phase-2 running best starts at 0 and is replaced only by a
strictly larger score, so when phase 1 accepts nothing and every
surviving candidate scores at or below zero, the Locator returns null
and the result's content is the cleaned whole-document fallback text —
even though qualifying candidates existed. -/
theorem c10_nonpositive_null (doc : DNode) (h1 : phase1 doc = none)
    (h2 : ∀ c ∈ phase2SurvivorsOf doc, phase2Score c ≤ 0) :
    findMainContent doc = none ∧
      (computeResult doc).content = ⟨cleanText (fallbackContent doc)⟩ := by
  have hfm : findMainContent doc = none := by
    unfold findMainContent
    rw [h1, phase2_eq_coreFold, coreFold_stay _ _ _ h2]
  refine ⟨hfm, ?_⟩
  rw [computeResult_content, hfm]

/-- C10 witness: `exDocLow` has a surviving candidate, every survivor
scores at most 0, and the extraction uses the whole-document
fallback. -/
theorem c10_witness :
    phase1 exDocLow = none ∧
      phase2SurvivorsOf exDocLow = [exDivLow] ∧
      phase2Score exDivLow ≤ 0 ∧
      (findMainContent exDocLow = none ∧
        (computeResult exDocLow).content =
          ⟨cleanText (fallbackContent exDocLow)⟩) :=
  ⟨by decide, by with_unfolding_all decide, by with_unfolding_all decide,
    c10_nonpositive_null exDocLow (by decide) (by with_unfolding_all decide)⟩

/-! ## C6: mutation of the live document -/

/-- Replacing the values of `data-score` entries is invisible after
stripping them. -/
theorem filter_map_replace_dataScore (attrs : List (String × String)) (v : String) :
    (attrs.map (fun p => if p.1 = "data-score" then ("data-score", v) else p)).filter
        (fun p => decide (p.1 ≠ "data-score")) =
      attrs.filter (fun p => decide (p.1 ≠ "data-score")) := by
  induction attrs with
  | nil => rfl
  | cons q rest ih =>
    simp only [List.map_cons, List.filter_cons]
    by_cases hq : q.1 = "data-score"
    · rw [if_pos hq]
      have h1 : (decide (("data-score", v).1 ≠ "data-score")) = false := by
        simp
      have h2 : (decide (q.1 ≠ "data-score")) = false := by
        simp [hq]
      rw [h1, h2]
      simpa using ih
    · rw [if_neg hq]
      have h2 : (decide (q.1 ≠ "data-score")) = true := by
        simp [hq]
      rw [h2]
      simpa using ih

/-- Writing `data-score` is invisible after stripping it. -/
theorem filter_setAttr_dataScore (attrs : List (String × String)) (v : String) :
    (setAttr attrs "data-score" v).filter (fun p => decide (p.1 ≠ "data-score")) =
      attrs.filter (fun p => decide (p.1 ≠ "data-score")) := by
  unfold setAttr
  by_cases h : (attrs.find? (fun p => p.1 = "data-score")).isSome
  · rw [if_pos h]
    exact filter_map_replace_dataScore attrs v
  · rw [if_neg h]
    rw [List.filter_append]
    simp

/-- The image pass changes nothing but `data-score` attributes. -/
theorem stripDS_imagePass :
    (∀ (pc : String) (n : DNode), stripDS (imagePassN pc n) = stripDS n) ∧
    (∀ (pc : String) (l : List DNode), stripDSL (imagePassL pc l) = stripDSL l) := by
  have key := DNode.rec2
    (P := fun n => ∀ pc : String, stripDS (imagePassN pc n) = stripDS n)
    (Q := fun l => ∀ pc : String, stripDSL (imagePassL pc l) = stripDSL l)
    (fun s pc => rfl)
    (fun d cs ih pc => by
      unfold imagePassN stripDS
      by_cases h : d.tag = "img" && imgFilterPasses pc d
      · rw [if_pos h]
        simp only [DNode.elem.injEq]
        exact ⟨by rw [filter_setAttr_dataScore], ih d.className⟩
      · rw [if_neg h]
        simp only [DNode.elem.injEq, true_and]
        exact ih d.className)
    (fun pc => rfl)
    (fun n rest ihn ihr pc => by
      unfold imagePassL stripDSL
      rw [ihn pc, ihr pc])
  exact ⟨fun pc n => key.1 n pc, fun pc l => key.2 l pc⟩

/-- C6 counterexample: on a document holding one candidate image (and
no meta-provided image), extraction returns a document that differs
from the input — the image selector wrote `data-score="0"` onto the
live image, so the tree is not identical before and after. -/
theorem c6_counterexample :
    (extractPage exDocImg false).2 ≠ exDocImg ∧
      (extractPage exDocImg false).2 =
        plainEl "body"
          [.elem ⟨"img", "", "", [("src", "https://x/pic.jpg"), ("data-score", "0")],
            false, false, 300, 200, 0, 0⟩ []] :=
  ⟨by decide, by decide⟩

/-- C6 (amended): the Noise Filter's removal pass and the Structured
Text Builder operate on a value copy and never change the document; the
only tree mutation extraction can make is the image selector's
`data-score` writes on candidate images (and none at all when a meta
image was found): modulo erasing `data-score` attributes, the document
returned by extraction equals the input. -/
theorem c6_no_mutation_beyond_dataScore (doc : DNode) (hasMetaImage : Bool) :
    stripDS ((extractPage doc hasMetaImage).2) = stripDS doc ∧
      (extractPage (stripDS doc) true).2 = stripDS doc := by
  constructor
  · have h : (extractPage doc hasMetaImage).2 =
        if hasMetaImage then doc else imagePass doc := rfl
    rw [h]
    by_cases hb : hasMetaImage
    · rw [if_pos hb]
    · rw [if_neg hb]
      exact stripDS_imagePass.1 "" doc
  · rfl

/-! ## C8: the auto-generated excerpt -/

/-- Reversal of an append headed by a cons, redistributed. -/
theorem rev_append_cons {α : Type} (a : α) (X Y Z : List α) :
    ((a :: X) ++ Y).reverse ++ Z = Y.reverse ++ (X.reverse ++ a :: Z) := by
  simp [List.reverse_append, List.reverse_cons, List.append_assoc]

/-- The head of a `dropWhile` result fails the predicate. -/
theorem dropWhile_eq_cons_head_not {α : Type} {p : α → Bool} :
    ∀ (l : List α) (a : α) (t : List α), l.dropWhile p = a :: t → p a = false := by
  intro l
  induction l with
  | nil => intro a t h; cases h
  | cons x xs ih =>
    intro a t h
    by_cases hx : p x
    · rw [List.dropWhile_cons_of_pos hx] at h
      exact ih a t h
    · rw [List.dropWhile_cons_of_neg hx] at h
      injection h with h1 _
      subst h1
      simpa using hx

/-- When the input contains whitespace, `stripLastWord` cuts exactly at
the whitespace run that preceded the removed trailing word: the input
is the output followed by a whitespace character and a remainder. -/
theorem stripLastWord_boundary (l : List Char) (h : ∃ c ∈ l, isJsSpace c) :
    ∃ c t, l = stripLastWord l ++ c :: t ∧ isJsSpace c = true := by
  have hne : l.reverse.dropWhile (fun c => !isJsSpace c) ≠ [] := by
    intro hnil
    obtain ⟨c, hc, hcs⟩ := h
    have := (List.dropWhile_eq_nil_iff.mp hnil) c (List.mem_reverse.mpr hc)
    simp [hcs] at this
  cases hcons : l.reverse.dropWhile (fun c => !isJsSpace c) with
  | nil => exact absurd hcons hne
  | cons a t =>
    have ha : isJsSpace a = true := by
      have := dropWhile_eq_cons_head_not l.reverse a t hcons
      simpa using this
    have hstrip : stripLastWord l =
        ((l.reverse.dropWhile (fun c => !isJsSpace c)).dropWhile isJsSpace).reverse := by
      show (if l.reverse.dropWhile (fun c => !isJsSpace c) = [] then l
        else ((l.reverse.dropWhile (fun c => !isJsSpace c)).dropWhile
          isJsSpace).reverse) = _
      rw [if_neg hne]
    have hstrip2 : stripLastWord l = (t.dropWhile isJsSpace).reverse := by
      rw [hstrip, hcons, List.dropWhile_cons_of_pos ha]
    have hrev : l.reverse = l.reverse.takeWhile (fun c => !isJsSpace c) ++ (a :: t) := by
      have h1 := List.takeWhile_append_dropWhile (fun c => !isJsSpace c) (l := l.reverse)
      rw [hcons] at h1
      exact h1.symm
    have hat : (a :: t : List Char) = (a :: t.takeWhile isJsSpace) ++ t.dropWhile isJsSpace := by
      have h2 := List.takeWhile_append_dropWhile isJsSpace (l := (a :: t))
      rw [List.takeWhile_cons_of_pos ha, List.dropWhile_cons_of_pos ha] at h2
      exact h2.symm
    have hl : l = stripLastWord l ++
        ((t.takeWhile isJsSpace).reverse ++
          a :: (l.reverse.takeWhile (fun c => !isJsSpace c)).reverse) := by
      rw [hstrip2]
      calc l = l.reverse.reverse := (List.reverse_reverse l).symm
      _ = (l.reverse.takeWhile (fun c => !isJsSpace c) ++ (a :: t)).reverse := by
          rw [← hrev]
      _ = (a :: t : List Char).reverse ++
          (l.reverse.takeWhile (fun c => !isJsSpace c)).reverse := by
          rw [List.reverse_append]
      _ = ((a :: t.takeWhile isJsSpace) ++ t.dropWhile isJsSpace).reverse ++
          (l.reverse.takeWhile (fun c => !isJsSpace c)).reverse := by
          rw [← hat]
      _ = (t.dropWhile isJsSpace).reverse ++
          ((t.takeWhile isJsSpace).reverse ++
            a :: (l.reverse.takeWhile (fun c => !isJsSpace c)).reverse) :=
          rev_append_cons a (t.takeWhile isJsSpace) (t.dropWhile isJsSpace) _
    cases hW : (t.takeWhile isJsSpace).reverse with
    | nil =>
      rw [hW] at hl
      refine ⟨a, (l.reverse.takeWhile (fun c => !isJsSpace c)).reverse, ?_, ha⟩
      simpa using hl
    | cons c0 t0 =>
      have hcs : isJsSpace c0 = true := by
        have hm : c0 ∈ (t.takeWhile isJsSpace).reverse := by
          rw [hW]
          exact List.mem_cons_self _ _
        exact List.mem_takeWhile_imp (List.mem_reverse.mp hm)
      rw [hW] at hl
      refine ⟨c0, t0 ++ a ::
        (l.reverse.takeWhile (fun c => !isJsSpace c)).reverse, ?_, hcs⟩
      simpa [List.append_assoc] using hl

/-- C8 counterexample: a document whose text is a single 400-character
token yields an excerpt whose body is the raw 300-character prefix of
`content` followed by `"..."`, cutting inside the token — characters
299 and 300 of the content are both non-whitespace, so the excerpt is
word-split mid-token. -/
theorem c8_counterexample :
    (computeResult exDocLong).content = ⟨List.replicate 400 'a'⟩ ∧
      (computeResult exDocLong).excerpt = ⟨List.replicate 300 'a' ++ "...".data⟩ ∧
      (computeResult exDocLong).content.data.getD 299 ' ' = 'a' ∧
      (computeResult exDocLong).content.data.getD 300 ' ' = 'a' ∧
      isJsSpace 'a' = false :=
  ⟨by decide, by decide, by decide, by decide, by decide⟩

/-- C8 (amended): whenever the first 300 characters of a non-empty
`content` contain at least one whitespace character, the auto-generated
excerpt is that prefix truncated at a word boundary plus `"..."`: the
kept part is a prefix of `content` whose cut point lands on whitespace,
so no token is split mid-word.  (When the prefix holds a single
unbroken token the excerpt may split it — see the counterexample.) -/
theorem c8_excerpt_word_boundary (doc : DNode)
    (hsp : ∃ c ∈ (computeResult doc).content.data.take 300, isJsSpace c)
    (hne : (computeResult doc).content.data ≠ []) :
    (computeResult doc).excerpt.data =
        stripLastWord ((computeResult doc).content.data.take 300) ++ "...".data ∧
      ∃ c t, (computeResult doc).content.data =
        stripLastWord ((computeResult doc).content.data.take 300) ++ c :: t ∧
        isJsSpace c = true := by
  have hex : (computeResult doc).excerpt.data =
      if (computeResult doc).content.data = [] then []
      else autoExcerpt ((computeResult doc).content.data) := rfl
  constructor
  · rw [hex, if_neg hne]
    rfl
  · obtain ⟨c, t, hct, hcs⟩ :=
      stripLastWord_boundary ((computeResult doc).content.data.take 300) hsp
    refine ⟨c, t ++ (computeResult doc).content.data.drop 300, ?_, hcs⟩
    calc (computeResult doc).content.data
        = (computeResult doc).content.data.take 300 ++
            (computeResult doc).content.data.drop 300 :=
          (List.take_append_drop _ _).symm
    _ = (stripLastWord ((computeResult doc).content.data.take 300) ++ c :: t) ++
          (computeResult doc).content.data.drop 300 := by rw [← hct]
    _ = stripLastWord ((computeResult doc).content.data.take 300) ++ c ::
          (t ++ (computeResult doc).content.data.drop 300) := by
        simp [List.append_assoc]

/-- C8 witness: on a document whose content is `"hello world"`, the
excerpt is `"hello..."` and the cut point lands on the space. -/
theorem c8_witness :
    ((computeResult exDocHello).content.data.take 300).any isJsSpace = true ∧
      (computeResult exDocHello).content.data ≠ [] ∧
      ((computeResult exDocHello).excerpt.data =
          stripLastWord ((computeResult exDocHello).content.data.take 300) ++
            "...".data ∧
        ∃ c t, (computeResult exDocHello).content.data =
          stripLastWord ((computeResult exDocHello).content.data.take 300) ++
            c :: t ∧ isJsSpace c = true) :=
  ⟨by decide, by decide,
    c8_excerpt_word_boundary exDocHello (by decide) (by decide)⟩

/-! ## C9: no aria-hidden element survives the noise filter -/

/-- The `attrValue` on an attribute that is neither `class` nor `id` reads
the attribute list. -/
theorem attrValue_other (d : ElemData) (name : String) (h1 : name ≠ "class")
    (h2 : name ≠ "id") :
    attrValue d name = (d.attrs.find? (fun p => p.1 = name)).map (fun p => p.2) := by
  unfold attrValue
  rw [if_neg h1, if_neg h2]

/-- The `[aria-hidden="true"]` removal selector matches exactly the
elements carrying that attribute value. -/
theorem matches_ariaSel (d : ElemData) :
    matchesSimple (selAttrEq "aria-hidden" "true") d = ariaP d := by
  have key : ∀ x : Option (String × String),
      (decide (x.map (fun p => p.2) = some "true")) =
        decide ((match x with | some p => p.2 | none => "") = "true") := by
    intro x
    cases x with
    | none => simp
    | some p => simp
  simp only [matchesSimple, selAttrEq, ariaP, getAttrD]
  rw [attrValue_other d "aria-hidden" (by decide) (by decide)]
  simp only [Bool.true_and, Bool.and_true]
  exact key _

/-- After removing every element matching `p`, no kept element (the
root excepted when it matches) satisfies `p`. -/
theorem removal_clears (p : ElemData → Bool) :
    (∀ n : DNode, removalDrops p n = false →
      existsElem p (removeMatching p n) = false) ∧
    (∀ l : List DNode, existsElemL p (removeMatchingL p l) = false) :=
  DNode.rec2
    (fun _ _ => rfl)
    (fun d cs ih h => by
      unfold removeMatching existsElem
      have hd : p d = false := by simpa [removalDrops] using h
      rw [hd, ih]
      rfl)
    rfl
    (fun n rest ihn ihr => by
      unfold removeMatchingL
      by_cases hd : removalDrops p n
      · rw [if_pos hd]
        exact ihr
      · rw [if_neg hd]
        unfold existsElemL
        rw [ihn (by simpa using hd), ihr]
        rfl)

/-- Removal can only shrink the set of elements: if some kept element
satisfies `q`, some original element did. -/
theorem removal_mono (p q : ElemData → Bool) :
    (∀ n : DNode, existsElem q (removeMatching p n) = true →
      existsElem q n = true) ∧
    (∀ l : List DNode, existsElemL q (removeMatchingL p l) = true →
      existsElemL q l = true) :=
  DNode.rec2
    (fun _ h => h)
    (fun d cs ih h => by
      unfold removeMatching at h
      unfold existsElem at h ⊢
      cases hq : q d
      · simp only [hq, Bool.false_or] at h ⊢
        exact ih h
      · rfl)
    (fun h => h)
    (fun n rest ihn ihr h => by
      unfold removeMatchingL at h
      unfold existsElemL
      by_cases hd : removalDrops p n
      · rw [if_pos hd] at h
        rw [ihr h, Bool.or_true]
      · rw [if_neg hd] at h
        unfold existsElemL at h
        rcases Bool.or_eq_true_iff.mp h with h' | h'
        · rw [ihn h', Bool.true_or]
        · rw [ihr h', Bool.or_true])

/-- Absence of `q`-elements is preserved by any removal pass. -/
theorem removal_preserves_absence (p q : ElemData → Bool) (n : DNode)
    (h : existsElem q n = false) :
    existsElem q (removeMatching p n) = false := by
  cases hx : existsElem q (removeMatching p n)
  · rfl
  · rw [(removal_mono p q).1 n hx] at h
    cases h

/-- Removal never changes the root element's record. -/
theorem rootData_removeMatching (p : ElemData → Bool) (n : DNode) :
    rootData (removeMatching p n) = rootData n := by
  cases n <;> rfl

/-- The selector fold never changes the root element's record. -/
theorem rootData_foldRemove (sels : List SimpleSel) : ∀ el : DNode,
    rootData (sels.foldl (fun t sel => removeMatching (matchesSimple sel) t) el) =
      rootData el := by
  induction sels with
  | nil => intro el; rfl
  | cons s rest ih =>
    intro el
    rw [List.foldl_cons, ih, rootData_removeMatching]

/-- Absence of `q`-elements is preserved by the whole selector fold. -/
theorem foldRemove_preserves_absence (q : ElemData → Bool)
    (sels : List SimpleSel) : ∀ el : DNode, existsElem q el = false →
    existsElem q
      (sels.foldl (fun t sel => removeMatching (matchesSimple sel) t) el) = false := by
  induction sels with
  | nil => intro el h; exact h
  | cons s rest ih =>
    intro el h
    rw [List.foldl_cons]
    exact ih _ (removal_preserves_absence _ _ _ h)

/-- The aria-hidden pass clears every aria-hidden element from a tree
whose root does not carry the attribute. -/
theorem removeAria_clears (el : DNode) (hroot : ariaP (rootData el) = false) :
    existsElem ariaP
      (removeMatching (matchesSimple (selAttrEq "aria-hidden" "true")) el) = false := by
  have hfun : matchesSimple (selAttrEq "aria-hidden" "true") = ariaP :=
    funext matches_ariaSel
  cases el with
  | text s => rfl
  | elem d cs =>
    unfold removeMatching existsElem
    rw [hfun, (removal_clears ariaP).2 cs]
    have hd : ariaP d = false := hroot
    rw [hd]
    rfl

/-- A phase-1 acceptance is never a noise element. -/
theorem phase1Accepts_not_noise (doc : DNode) (sel : Sel) (el : DNode)
    (h : phase1Accepts doc sel = some el) :
    isNoiseElement (rootData el) = false := by
  unfold phase1Accepts at h
  cases hq : querySelector doc sel with
  | none => rw [hq] at h; cases h
  | some q =>
    rw [hq] at h
    cases hn : isNoiseElement (rootData q) with
    | true => simp [hn] at h
    | false =>
      simp only [hn, Bool.not_false, if_true] at h
      split at h
      · cases h
        exact hn
      · cases h

/-- Whatever the Locator returns is not a noise element. -/
theorem findMainContent_not_noise (doc el : DNode)
    (h : findMainContent doc = some el) :
    isNoiseElement (rootData el) = false := by
  unfold findMainContent at h
  cases hp : phase1 doc with
  | some e =>
    rw [hp] at h
    obtain ⟨sel, _, hacc⟩ := List.exists_of_findSome?_eq_some hp
    have hn := phase1Accepts_not_noise doc sel e hacc
    have he : e = el := Option.some.inj h
    rwa [he] at hn
  | none =>
    rw [hp] at h
    rw [phase2_eq_coreFold] at h
    rcases coreFold_mem _ _ _ _ h with h' | h'
    · cases h'
    · have hs : phase2Survives el = true := (List.mem_filter.mp h').2
      unfold phase2Survives at hs
      have := (Bool.and_eq_true_iff.mp
        ((Bool.and_eq_true_iff.mp
          ((Bool.and_eq_true_iff.mp hs).1)).1)).1
      simpa using this

/-- An `aria-hidden="true"` element is classified as noise. -/
theorem aria_then_noise (d : ElemData) (ha : ariaP d = true) :
    isNoiseElement d = true := by
  have hg : getAttrD d "aria-hidden" = "true" := by simpa [ariaP] using ha
  unfold isNoiseElement
  by_cases h1 : (noisePatterns.any fun pat =>
      containsSub (lowerL d.className) pat.data ||
        containsSub (lowerL d.idAttr) pat.data ||
        containsSub (lowerL (getAttrD d "role")) pat.data)
  · simp [h1]
  · simp [h1, hg]

/-- A non-noise element does not carry `aria-hidden="true"`. -/
theorem not_noise_aria (d : ElemData) (h : isNoiseElement d = false) :
    ariaP d = false := by
  cases hx : ariaP d
  · rfl
  · rw [aria_then_noise d hx] at h
    cases h

/-- C9: for every container chosen by the Locator, the Noise Filter's
removal pass leaves no element carrying `aria-hidden="true"` in the
filtered subtree handed to the Structured Text Builder: every such
element, with its subtree, has been deleted from the cloned
container. -/
theorem c9_no_aria_hidden (doc el : DNode) (h : findMainContent doc = some el) :
    existsElem ariaP (applyRemoveSelectors el) = false := by
  have hroot : ariaP (rootData el) = false :=
    not_noise_aria _ (findMainContent_not_noise doc el h)
  have hmem : (selAttrEq "aria-hidden" "true") ∈ removeSelectors := by decide
  obtain ⟨pre, post, hsplit⟩ := List.append_of_mem hmem
  unfold applyRemoveSelectors
  rw [hsplit, List.foldl_append, List.foldl_cons]
  apply foldRemove_preserves_absence
  apply removeAria_clears
  rw [rootData_foldRemove]
  exact hroot

/-- C9 witness: a concrete located article containing an aria-hidden
span; after the removal pass no aria-hidden element remains. -/
theorem c9_witness :
    findMainContent exDocHidden = some exArticleHidden ∧
      existsElem ariaP exArticleHidden = true ∧
      existsElem ariaP (applyRemoveSelectors exArticleHidden) = false :=
  ⟨by with_unfolding_all decide, by decide,
    c9_no_aria_hidden exDocHidden exArticleHidden (by with_unfolding_all decide)⟩

/-! ## C7: the builder on all-paragraph containers -/

/-- A removal predicate failing on the plain-paragraph record keeps a
run of text-only paragraphs intact. -/
theorem removeMatchingL_plainP (p : ElemData → Bool)
    (hp : p (mkEl "p" "" "" []) = false) (ps : List String) :
    removeMatchingL p (ps.map mkP) = ps.map mkP := by
  induction ps with
  | nil => rfl
  | cons s rest ih =>
    have hdrop : removalDrops p (mkP s) = false := hp
    have hkeep : removeMatching p (mkP s) = mkP s := rfl
    simp only [List.map_cons]
    unfold removeMatchingL
    rw [hdrop]
    simp only [Bool.false_eq_true, if_false, hkeep, ih]

/-- The whole denylist fold keeps a plain container of text-only
paragraphs intact. -/
theorem foldRemove_plainDiv (sels : List SimpleSel)
    (hall : ∀ sel ∈ sels, matchesSimple sel (mkEl "p" "" "" []) = false)
    (d : ElemData) (ps : List String) :
    sels.foldl (fun t sel => removeMatching (matchesSimple sel) t)
      (.elem d (ps.map mkP)) = .elem d (ps.map mkP) := by
  induction sels with
  | nil => rfl
  | cons s rest ih =>
    rw [List.foldl_cons]
    have h1 : removeMatching (matchesSimple s) (DNode.elem d (ps.map mkP)) =
        DNode.elem d (ps.map mkP) := by
      unfold removeMatching
      rw [removeMatchingL_plainP _ (hall s (List.mem_cons_self s rest))]
    rw [h1]
    exact ih fun sel hs => hall sel (List.mem_cons_of_mem s hs)

/-- The `applyRemoveSelectors` keeps a plain container of text-only
paragraphs intact. -/
theorem applyRemove_plainDiv (d : ElemData) (ps : List String) :
    applyRemoveSelectors (.elem d (ps.map mkP)) = .elem d (ps.map mkP) := by
  unfold applyRemoveSelectors
  exact foldRemove_plainDiv removeSelectors (by decide) d ps

/-- The walker on a run of text-only paragraphs. -/
theorem walkL_mkP (ps : List String) : ∀ i : Nat,
    walkL i (ps.map mkP) = (pEntryList i ps, List.range' i ps.length, i + ps.length) := by
  induction ps with
  | nil =>
    intro i
    show ([], [], i) = (pEntryList i [], List.range' i 0, i + 0)
    simp [pEntryList]
  | cons s rest ih =>
    intro i
    have hwn : walkN i (mkP s) = ([⟨i, "p", [DNode.text s], []⟩], i + 1) := rfl
    have hel : isElem (mkP s) = true := rfl
    simp only [List.map_cons, walkL, hwn, hel, if_true, ih (i + 1)]
    simp only [pEntryList, List.length_cons, List.range'_succ, Prod.mk.injEq]
    exact ⟨by simp, by simp, by omega⟩

/-- The walker filter keeps every paragraph entry. -/
theorem filter_pEntryList (ps : List String) : ∀ i : Nat,
    (pEntryList i ps).filter (fun e => contentTags.contains e.tag) =
      pEntryList i ps := by
  induction ps with
  | nil => intro i; rfl
  | cons s rest ih =>
    intro i
    simp only [pEntryList, List.filter_cons]
    have : (contentTags.contains (⟨i, "p", [DNode.text s], []⟩ : WalkEntry).tag) = true := rfl
    rw [this, if_pos rfl, ih]

/-- The builder loop emits one trimmed block per paragraph, in order. -/
theorem buildLoop_pEntry (ps : List String) :
    ∀ (i : Nat) (processed : List Nat) (parts : List (List Char)),
    (∀ j ∈ processed, j < i) →
    (∀ s ∈ ps, 10 < (jsTrim s.data).length) →
    buildLoop (pEntryList i ps) processed parts =
      parts ++ ps.map (fun s => jsTrim s.data) := by
  induction ps with
  | nil =>
    intro i processed parts _ _
    simp [pEntryList, buildLoop]
  | cons s rest ih =>
    intro i processed parts hpr hs
    have hs0 := hs s (List.mem_cons_self s rest)
    have hc1 : processed.contains i = false := by
      cases hcc : processed.contains i
      · rfl
      · exact absurd (hpr i (List.elem_iff.mp hcc)) (lt_irrefl i)
    have htext : textContentL [DNode.text s] = s.data := by
      show s.data ++ [] = s.data
      exact List.append_nil _
    have hne : (jsTrim s.data = []) = False := by
      refine eq_false fun he => ?_
      rw [he] at hs0
      simp at hs0
    have hlt : ((jsTrim s.data).length < 10) = False := eq_false (by omega)
    have hgt : (10 < (jsTrim s.data).length) = True := eq_true hs0
    have hdir : directText [DNode.text s] = s.data := by
      show ([] : List Char) ++ s.data = s.data
      exact List.nil_append _
    have hfp : formatPart "p" (jsTrim s.data) = jsTrim s.data := rfl
    simp only [pEntryList, buildLoop, hc1, htext, hne, hlt, hgt, hdir, hfp,
      Bool.false_eq_true, if_false, decide_False, decide_True, Bool.or_false,
      Bool.false_or, List.any_nil, if_true, if_false]
    rw [ih (i + 1) (i :: processed) (parts ++ [jsTrim s.data]) ?inv
      (fun x hx => hs x (List.mem_cons_of_mem _ hx))]
    · simp [List.append_assoc]
    case inv =>
      intro j hj
      rcases List.mem_cons.mp hj with rfl | hj'
      · omega
      · exact Nat.lt_succ_of_lt (hpr j hj')

/-- C7 counterexample: a container with a 10-character paragraph and a
15-character paragraph.  The claim predicts two blank-line-separated
blocks; the code's strict `> 10` gate drops the 10-character paragraph
(the surviving single block then comes out alone). -/
theorem c7_counterexample :
    extractStructuredText exContainerTen = "abcdefghijklmno".data ∧
      extractStructuredText exContainerTen ≠
        ("abcdefghij\n\nabcdefghijklmno").data :=
  ⟨by decide, by decide⟩

/-- C7 (amended): for every container whose children are exclusively
text-only paragraph elements whose trimmed text is strictly longer than
10 characters, the Structured Text Builder emits exactly one block per
paragraph (its trimmed text), in document order, joined by blank-line
separators, with no text captured twice; paragraphs whose direct text
is 10 characters or shorter are skipped. -/
theorem c7_builder_paragraphs (d : ElemData) (ps : List String)
    (h : ∀ s ∈ ps, 10 < (jsTrim s.data).length) :
    extractStructuredText (.elem d (ps.map mkP)) =
      joinSep "\n\n".data (ps.map (fun s => jsTrim s.data)) := by
  have hacc : acceptedEntries (DNode.elem d (ps.map mkP)) = pEntryList 1 ps := by
    show ((walkL 1 (ps.map mkP)).1).filter (fun e => contentTags.contains e.tag) =
      pEntryList 1 ps
    rw [walkL_mkP ps 1]
    exact filter_pEntryList ps 1
  have hparts : buildLoop (acceptedEntries (DNode.elem d (ps.map mkP))) [] [] =
      ps.map (fun s => jsTrim s.data) := by
    rw [hacc]
    exact buildLoop_pEntry ps 1 [] [] (by intro j hj; cases hj) h
  show (let clone := DNode.elem d (ps.map mkP)
    let filtered := applyRemoveSelectors clone
    let parts := buildLoop (acceptedEntries filtered) [] []
    if parts = [] then jsOr (innerText filtered) (jsOr (textContent filtered) [])
    else joinSep "\n\n".data parts) = _
  simp only [applyRemove_plainDiv, hparts]
  cases ps with
  | nil =>
    simp only [List.map_nil, if_pos rfl]
    show jsOr (innerText (DNode.elem d [])) (jsOr (textContentL []) []) = joinSep "\n\n".data []
    have h1 : innerText (DNode.elem d []) = [] := by
      unfold innerText
      split
      · rfl
      · rfl
    rw [h1]
    rfl
  | cons s rest =>
    rw [if_neg (by simp)]

/-- C7 witness: a single 12-character paragraph yields exactly its
text. -/
theorem c7_witness :
    10 < (jsTrim "hello world!".data).length ∧
      extractStructuredText (.elem (mkEl "div" "" "" []) (["hello world!"].map mkP)) =
        "hello world!".data :=
  ⟨by decide, by
    rw [c7_builder_paragraphs (mkEl "div" "" "" []) ["hello world!"] (by decide)]
    decide⟩

end SnapSummary
